/-
Verification of the mens-amplio LED compositing core
(src/led/renderer.py, src/led/effects/base.py) against its specification.

Embedding conventions:
* Python floats are modelled as rationals (ℚ); wall-clock instants are ℚ
  values passed explicitly to each render call (the code reads time.time()).
* The shared frame buffer is a flattened list of rationals; numpy whole-array
  operations (multiply by scalar, elementwise add, zeros) become list maps,
  zips and replicates.
* An effect layer's render is a function from the frame to `Except String
  Frame`: `.error` models a raised Python exception.  `safely_render` (called
  by renderer.py but defined outside the provided sources) is modelled from
  the spec.
* Python truthiness tests on floats / optional floats (`if not
  self.last_response_level`, `elif self.fading_to:`, `if not self.start`)
  are modelled exactly: `none` and `some 0` are falsy.
* Mutation is modelled by explicit state passing: every stateful `render`
  returns the updated object together with the resulting frame.
-/
import Mathlib

namespace MensAmplio

/-! ## Frames -/

/-- A frame buffer: flattened list of float components (normalized [0,1],
not clamped during composition). -/
abbrev Frame := List ℚ

/-- numpy.multiply(frame, c, frame): scale every component in place. -/
def frameScale (c : ℚ) (f : Frame) : Frame := f.map (fun x => c * x)

/-- numpy.add(f, g, f): elementwise addition of two buffers. -/
def frameAdd (f g : Frame) : Frame := List.zipWith (· + ·) f g

/-- numpy.zeros(shape): a zeroed buffer of the given length. -/
def frameZero (n : Nat) : Frame := List.replicate n 0

/-! ## Effect layers -/

/-- One effect layer, reduced to its `render` action on the shared frame
buffer plus the `transitionFadeTime` attribute read by
`Renderer._fadeTimeForTransition`.  A raised exception inside `render` is the
`.error` case. -/
structure Layer where
  render : Frame → Except String Frame
  transitionFadeTime : ℚ := 0

/-- Modelled from the spec: `EffectLayer.safely_render` is invoked throughout
renderer.py but its definition is not among the provided sources.  Per the
spec's error-handling design, it wraps one layer invocation so that a single
layer's failure is contained — the layer is skipped for that frame, the shared
buffer is left as it was, and no exception propagates. -/
def safely_render (l : Layer) (frame : Frame) : Frame :=
  match l.render frame with
  | .ok frame' => frame'
  | .error _ => frame

/-- `for layer in layers: layer.safely_render(model, params, frame)` —
accumulate every layer of a scene into the shared buffer. -/
def renderLayers (layers : List Layer) (frame : Frame) : Frame :=
  layers.foldl (fun acc l => safely_render l acc) frame

/-- Python truthiness of an optional float: `None` and `0.0` are falsy. -/
def qTruthy : Option ℚ → Bool
  | none => false
  | some x => decide (x ≠ 0)

/-! ## LinearFade (renderer.py lines 114-143) -/

/-- State of a `LinearFade(startLayers, endLayers, duration)`.  `start` is
`none` until the first render call captures the wall clock.  Python's `None`
layer lists are modelled as `[]` (both are falsy in every guard that reads
them, and only truthy lists are iterated). -/
structure LinearFade where
  startLayers : List Layer
  endLayers : List Layer
  duration : ℚ
  start : Option ℚ := none
  done : Bool := false

/-- `LinearFade.render`: lazily capture the start instant, accumulate the end
layers into the frame, then either mark done (elapsed/duration ≥ 1) or blend
`p * frame + (1-p) * (start layers rendered into a zeroed buffer)`. -/
def LinearFade.render (fd : LinearFade) (now : ℚ) (frame : Frame) :
    LinearFade × Frame :=
  let start := if qTruthy fd.start then fd.start.getD now else now
  let frame1 := renderLayers fd.endLayers frame
  let percentDone := (now - start) / fd.duration
  if 1 ≤ percentDone then
    ({ fd with start := some start, done := true }, frame1)
  else
    let frame2 := frameScale percentDone frame1
    if fd.startLayers.isEmpty then
      ({ fd with start := some start }, frame2)
    else
      let tmp := renderLayers fd.startLayers (frameZero frame1.length)
      ({ fd with start := some start },
        frameAdd frame2 (frameScale (1 - percentDone) tmp))

/-! ## TwoStepFade, FastFade, TwoStepLinearFade (renderer.py lines 146-180) -/

/-- `TwoStepFade(fade1, fade2, startLayers, endLayers)`: both sub-fades of
every concrete two-step fade in the code are `LinearFade`s. -/
structure TwoStepFade where
  fade1 : LinearFade
  fade2 : LinearFade
  startLayers : List Layer
  endLayers : List Layer
  done : Bool := false

/-- `TwoStepFade.render`: delegate to fade1 until it is done, then to fade2,
copying fade2's done flag. -/
def TwoStepFade.render (t : TwoStepFade) (now : ℚ) (frame : Frame) :
    TwoStepFade × Frame :=
  if t.fade1.done = false then
    let r := t.fade1.render now frame
    ({ t with fade1 := r.1 }, r.2)
  else
    let r := t.fade2.render now frame
    ({ t with fade2 := r.1, done := r.1.done }, r.2)

/-- `FastFade(startLayers, endLayers, duration)`: fade out to nothing, then
in from nothing, each over half the duration. -/
def FastFade (startLayers endLayers : List Layer) (duration : ℚ) :
    TwoStepFade :=
  { fade1 := { startLayers := startLayers, endLayers := [],
               duration := duration / 2 }
    fade2 := { startLayers := [], endLayers := endLayers,
               duration := duration / 2 }
    startLayers := startLayers
    endLayers := endLayers }

/-- `TwoStepLinearFade(currLayers, nextLayers, finalLayers, d1, d2)`. -/
def TwoStepLinearFade (currLayers nextLayers finalLayers : List Layer)
    (duration_1 duration_2 : ℚ) : TwoStepFade :=
  { fade1 := { startLayers := currLayers, endLayers := nextLayers,
               duration := duration_1 }
    fade2 := { startLayers := nextLayers, endLayers := finalLayers,
               duration := duration_2 }
    startLayers := currLayers
    endLayers := finalLayers }

/-! ## HeadsetResponsiveEffectLayer (effects/base.py lines 31-106) -/

/-- One sensor reading (threads.HeadsetThread.EEGInfo, external): an identity
tag distinguishing distinct reading objects, the validity flag `on`, and the
value of the metric this layer responds to (`getattr(eeg, respond_to)`). -/
structure EEG where
  id : Nat
  «on» : Bool
  value : ℚ
  deriving DecidableEq

/-- Mutable state of a `HeadsetResponsiveEffectLayer`. -/
structure HRLayer where
  smooth_response_over_n_secs : ℚ
  measurements : List ℚ := []
  timestamps : List ℚ := []
  last_eeg : Option EEG := none
  last_response_level : Option ℚ := none
  fading_to : Option ℚ := none
  deriving DecidableEq

/-- `start_fade(new_level)`: take the level immediately when the current one
is falsy (`None` or `0.0`), otherwise begin fading toward it. -/
def HRLayer.start_fade (s : HRLayer) (new_level : ℚ) : HRLayer :=
  if qTruthy s.last_response_level = false then
    { s with last_response_level := some new_level }
  else
    { s with fading_to := some new_level }

/-- `end_fade()`: commit the pending target into the current level. -/
def HRLayer.end_fade (s : HRLayer) : HRLayer :=
  { s with last_response_level := s.fading_to, fading_to := none }

/-- The history-trim loop of `HeadsetResponsiveEffectLayer.render` (lines
79-87): walking the timestamp list from newest to oldest, count entries up to
and including the first one older than `window` relative to `t0`; with no
such entry the whole list is counted. -/
def trimLen (window t0 : ℚ) : List ℚ → Nat
  | [] => 0
  | t :: rest => if window < t0 - t then 1 else 1 + trimLen window t0 rest

/-- The `elif self.fading_to:` / final fall-through of
`HeadsetResponsiveEffectLayer.render` (lines 91-100): shared by the no-eeg,
same-eeg and off-eeg paths. -/
def HRLayer.renderNoNewReading (s : HRLayer) (now : ℚ) :
    Option (HRLayer × Option ℚ) :=
  if qTruthy s.fading_to then
    match s.timestamps with
    | [] => none
    | t0 :: _ =>
      let fade_progress := now - t0
      if 1 ≤ fade_progress then
        let s' := s.end_fade
        some (s', s'.last_response_level)
      else
        match s.fading_to, s.last_response_level with
        | some ft, some lr =>
          some (s, some (fade_progress * ft + (1 - fade_progress) * lr))
        | _, none => none
        | none, _ => none
  else
    some (s, none)

/-- `HeadsetResponsiveEffectLayer.render`, minus the final call to the
subclass hook: returns the updated state and the `response_level` argument
passed to `render_responsive` (`none` = Python `None`).  The outer `none`
models a raised exception (`timestamps[0]` on an empty list, or arithmetic
on a `None` level), which no reachable state triggers. -/
def HRLayer.render (s : HRLayer) (eeg : Option EEG) (now : ℚ) :
    Option (HRLayer × Option ℚ) :=
  match eeg with
  | some e =>
    if some e ≠ s.last_eeg ∧ e.on then
      -- new, distinct, valid reading
      let s1 := if qTruthy s.fading_to then s.end_fade else s
      let ms := e.value :: s1.measurements
      let ts := now :: s1.timestamps
      let n := trimLen s1.smooth_response_over_n_secs now ts
      let s2 := { s1 with measurements := ms.take n, timestamps := ts.take n,
                          last_eeg := some e }
      let s3 :=
        if 1 < s2.measurements.length then
          s2.start_fade (s2.measurements.sum / s2.measurements.length)
        else s2
      some (s3, s3.last_response_level)
    else s.renderNoNewReading now
  | none => s.renderNoNewReading now

/-! ## Playlist and Renderer (renderer.py lines 9-99) -/

/-- Modelled from the spec: class `Playlist` (module `playlist`) is imported
by renderer.py but is not among the provided sources.  Per the spec it is an
ordered non-empty sequence of scenes with a current-selection cursor;
`selection()` is pure and repeatable and `advance()` moves the cursor
(sequential wraparound here; the shuffle policy does not affect any claim). -/
structure Playlist where
  scenes : List (List Layer)
  index : Nat := 0

/-- Modelled from the spec: `Playlist.selection()` returns the current
scene. -/
def Playlist.selection (p : Playlist) : List Layer :=
  p.scenes.getD (p.index % p.scenes.length) []

/-- Modelled from the spec: `Playlist.advance()` moves the cursor forward
with wraparound. -/
def Playlist.advance (p : Playlist) : Playlist :=
  { p with index := (p.index + 1) % p.scenes.length }

/-- The renderer's single in-flight fade: either a plain `LinearFade` or a
two-step fade (`FastFade` / `TwoStepLinearFade`). -/
inductive RFade where
  | linear (fd : LinearFade)
  | twoStep (t : TwoStepFade)

/-- Dispatch `fade.render(model, params, frame)`. -/
def RFade.render (fd : RFade) (now : ℚ) (frame : Frame) : RFade × Frame :=
  match fd with
  | .linear f => let r := f.render now frame; (.linear r.1, r.2)
  | .twoStep t => let r := t.render now frame; (.twoStep r.1, r.2)

/-- Read `fade.done`. -/
def RFade.done : RFade → Bool
  | .linear f => f.done
  | .twoStep t => t.done

/-- Python truthiness of an optional string (`if playlistKey:`, `if
self.nextPlaylist:`): `None` and the empty string are falsy. -/
def strTruthy : Option String → Bool
  | none => false
  | some s => decide (s ≠ "")

/-- `Renderer` state.  `playlists` is the name → Playlist dictionary; a
lookup of a missing key raises (modelled as `none` results from the methods
below).  `GammaLayer.render` — a fixed per-component lookup-table transform
whose numeric table does not bear on any claim — is carried as the abstract
buffer transform `gammaLayer`. -/
structure Renderer where
  playlists : String → Option Playlist
  activePlaylist : Option String
  nextPlaylist : Option String := none
  useFastFades : Bool := false
  fade : Option RFade := none
  gammaLayer : Frame → Frame

/-- `Renderer._get(playlistKey)`: `none` result of the outer option models a
`KeyError`; `Renderer._get` returns `None` for a falsy key. -/
def Renderer.get (r : Renderer) (playlistKey : Option String) :
    Option (Option Playlist) :=
  if strTruthy playlistKey then
    match r.playlists (playlistKey.getD "") with
    | some p => some (some p)
    | none => none
  else some none

/-- `Renderer._active()`. -/
def Renderer.active (r : Renderer) : Option (Option Playlist) :=
  r.get r.activePlaylist

/-- `Renderer.render(model, params, frame)`: drive the in-flight fade and
retire it when done (committing a pending playlist swap), or render the
active playlist's current selection; always finish with the gamma layer.
`none` models an uncaught exception (`KeyError` on a missing playlist). -/
def Renderer.render (r : Renderer) (now : ℚ) (frame : Frame) :
    Option (Renderer × Frame) :=
  match r.fade with
  | some fd =>
    let res := fd.render now frame
    let r' :=
      if res.1.done then
        let r1 :=
          if strTruthy r.nextPlaylist then
            { r with activePlaylist := r.nextPlaylist, nextPlaylist := none }
          else r
        { r1 with fade := none }
      else { r with fade := some res.1 }
    some (r', r'.gammaLayer res.2)
  | none =>
    if strTruthy r.activePlaylist then
      match r.playlists (r.activePlaylist.getD "") with
      | some pl => some (r, r.gammaLayer (renderLayers pl.selection frame))
      | none => none
    else
      some (r, r.gammaLayer frame)

/-- `Renderer.advanceCurrentPlaylist(fadeTime)`: capture the current
selection, advance the active playlist in place, and install a `LinearFade`
from the old selection to the new one.  `none` models the raised exception
when no playlist is active (or the dictionary lookup fails). -/
def Renderer.advanceCurrentPlaylist (r : Renderer) (fadeTime : ℚ) :
    Option Renderer :=
  match r.active with
  | some (some active) =>
    let selection := active.selection
    let active' := active.advance
    some { r with
      playlists := fun k =>
        if r.activePlaylist = some k then some active' else r.playlists k
      fade := some (.linear { startLayers := selection,
                              endLayers := active'.selection,
                              duration := fadeTime }) }
  | some none => none
  | none => none

/-- `Renderer._fadeTimeForTransition(playlist)`: `max` over the selection's
`transitionFadeTime`s; Python `max` raises on an empty sequence (`none`). -/
def Renderer.fadeTimeForTransition (playlist : Playlist) : Option ℚ :=
  (playlist.selection.map (fun l => l.transitionFadeTime)).max?

/-- `Renderer.swapPlaylists(nextPlaylist, intermediatePlaylist,
advanceAfterFadeOut, fadeTime)`: record the target as pending and install a
`FastFade`, `TwoStepLinearFade` or `LinearFade` to it, optionally advancing
the intermediate and source playlists' cursors.  In-place mutation of the
dictionary's playlist objects becomes a pointwise dictionary update; this is
exact whenever the intermediate key differs from the active key. -/
def Renderer.swapPlaylists (r : Renderer) (next : String)
    (intermediatePlaylist : Option String := none)
    (advanceAfterFadeOut : Bool := true) (fadeTime : ℚ := 1) :
    Option Renderer :=
  match r.active with
  | none => none
  | some activeOpt =>
    let r0 := { r with nextPlaylist := some next }
    match activeOpt, r0.get r0.nextPlaylist with
    | some active, some (some nextPl) =>
      let withAdvance := fun (r1 : Renderer) =>
        if advanceAfterFadeOut then
          { r1 with playlists := fun k =>
              if r.activePlaylist = some k then some active.advance
              else r1.playlists k }
        else r1
      if r0.useFastFades then
        some (withAdvance { r0 with
          fade := some (.twoStep
            (FastFade active.selection nextPl.selection fadeTime)) })
      else
        match intermediatePlaylist with
        | some interKey =>
          (match r0.get (some interKey) with
           | some (some middle) =>
             (match Renderer.fadeTimeForTransition middle with
              | some dwell =>
                let r1 := { r0 with
                  fade := some (.twoStep (TwoStepLinearFade active.selection
                    middle.selection nextPl.selection (1/4) dwell)) }
                let r2 :=
                  if advanceAfterFadeOut then
                    { r1 with playlists := fun k =>
                        if some interKey = some k then some middle.advance
                        else r1.playlists k }
                  else r1
                some (withAdvance r2)
              | none => none)
           | _ => none)
        | none =>
          some (withAdvance { r0 with
            fade := some (.linear { startLayers := active.selection,
                                    endLayers := nextPl.selection,
                                    duration := fadeTime }) })
    | _, _ => none

/-- Invariant tying a `TwoStepFade`'s own done flag to its sub-fades: the
composite's flag mirrors fade2's, and fade2 cannot be done while fade1 is
not. -/
def TSInv (t : TwoStepFade) : Prop :=
  t.done = t.fade2.done ∧ (t.fade1.done = false → t.fade2.done = false)

/-! ## General lemmas about the embedded operations -/

theorem safely_render_error (l : Layer) (frame : Frame) (err : String)
    (h : l.render frame = .error err) : safely_render l frame = frame := by
  unfold safely_render
  rw [h]

theorem safely_render_ok (l : Layer) (frame frame' : Frame)
    (h : l.render frame = .ok frame') : safely_render l frame = frame' := by
  unfold safely_render
  rw [h]

theorem renderLayers_nil (frame : Frame) : renderLayers [] frame = frame :=
  rfl

theorem renderLayers_cons (l : Layer) (ls : List Layer) (frame : Frame) :
    renderLayers (l :: ls) frame = renderLayers ls (safely_render l frame) :=
  rfl

theorem renderLayers_append (xs ys : List Layer) (frame : Frame) :
    renderLayers (xs ++ ys) frame = renderLayers ys (renderLayers xs frame) :=
  List.foldl_append _ _ _ _

theorem frameScale_length (c : ℚ) (f : Frame) :
    (frameScale c f).length = f.length :=
  List.length_map _ _

theorem frameScale_frameZero (c : ℚ) (n : Nat) :
    frameScale c (frameZero n) = frameZero n := by
  unfold frameScale frameZero
  rw [List.map_replicate, mul_zero]

theorem frameAdd_frameZero (f : Frame) : frameAdd f (frameZero f.length) = f := by
  induction f with
  | nil => rfl
  | cons a t ih =>
    unfold frameAdd frameZero at ih ⊢
    simp only [List.length_cons, List.replicate_succ, List.zipWith_cons_cons,
      add_zero, ih]

/-- Helper: `LinearFade.render` on a fade whose start instant is already
captured (and nonzero), when at least the full duration has elapsed. -/
theorem LinearFade.render_done (fd : LinearFade) (now s : ℚ) (frame : Frame)
    (hstart : fd.start = some s) (hs : s ≠ 0) (hdur : 0 < fd.duration)
    (helapsed : fd.duration ≤ now - s) :
    fd.render now frame =
      ({ fd with start := some s, done := true },
        renderLayers fd.endLayers frame) := by
  have hq : qTruthy fd.start = true := by
    rw [hstart]
    simp [qTruthy, hs]
  have hp : 1 ≤ (now - s) / fd.duration := by
    rw [le_div_iff₀ hdur]
    linarith
  unfold LinearFade.render
  rw [hq]
  simp only [if_true, hstart, Option.getD_some, if_pos hp]

/-- C4: for every LinearFade with duration d, on any render call where the
elapsed time since the fade's first render call is at least d, the fade sets
its done flag and leaves the frame exactly equal to the accumulated rendering
of the end scene's layers — no start-scene contribution, no scaling. -/
theorem c4_linear_fade_completion (fd : LinearFade) (now s : ℚ)
    (frame : Frame) (hstart : fd.start = some s) (hs : s ≠ 0)
    (hdur : 0 < fd.duration) (helapsed : fd.duration ≤ now - s) :
    (fd.render now frame).1.done = true ∧
    (fd.render now frame).2 = renderLayers fd.endLayers frame := by
  rw [LinearFade.render_done fd now s frame hstart hs hdur helapsed]
  exact ⟨rfl, rfl⟩

/-- C4 witness. -/
theorem c4_witness :
    (LinearFade.render ⟨[], [], 1, some 1, false⟩ 2 []).1.done = true :=
  (c4_linear_fade_completion ⟨[], [], 1, some 1, false⟩ 2 1 [] rfl
    (by norm_num) (by norm_num) (by norm_num)).1

/-- Helper: `LinearFade.render` during the active phase (start captured,
elapsed within [0, duration)) blends end and start contributions with weights
`p` and `1 - p`. -/
theorem LinearFade.render_active (fd : LinearFade) (now s : ℚ) (frame : Frame)
    (hstart : fd.start = some s) (hs : s ≠ 0) (hdur : 0 < fd.duration)
    (h0 : 0 ≤ now - s) (h1 : now - s < fd.duration) :
    fd.render now frame =
      ({ fd with start := some s },
        frameAdd
          (frameScale ((now - s) / fd.duration)
            (renderLayers fd.endLayers frame))
          (frameScale (1 - (now - s) / fd.duration)
            (renderLayers fd.startLayers
              (frameZero (renderLayers fd.endLayers frame).length)))) := by
  have hq : qTruthy fd.start = true := by
    rw [hstart]
    simp [qTruthy, hs]
  have hplt : (now - s) / fd.duration < 1 := by
    rw [div_lt_one hdur]
    linarith
  have hnp : ¬ (1 : ℚ) ≤ (now - s) / fd.duration := not_le.mpr hplt
  unfold LinearFade.render
  rw [hq]
  simp only [if_true, hstart, Option.getD_some, if_neg hnp]
  cases hsl : fd.startLayers with
  | nil =>
    simp only [hsl, List.isEmpty_nil, if_true, renderLayers_nil,
      frameScale_frameZero, ← frameScale_length ((now - s) / fd.duration)
        (renderLayers fd.endLayers frame), frameAdd_frameZero]
  | cons a t =>
    simp [hsl]

/-- C5: during the active phase of a LinearFade the resulting frame equals
the end scene's accumulated contribution scaled by `end_weight` plus the
start scene's contribution (rendered into a zeroed temporary buffer) scaled
by `start_weight`, where `end_weight = clamp(elapsed/duration, 0, 1)` and the
two weights sum to 1. -/
theorem c5_linear_fade_weights (fd : LinearFade) (now s : ℚ) (frame : Frame)
    (hstart : fd.start = some s) (hs : s ≠ 0) (hdur : 0 < fd.duration)
    (h0 : 0 ≤ now - s) (h1 : now - s < fd.duration) :
    (fd.render now frame).2 =
      frameAdd
        (frameScale (max 0 (min 1 ((now - s) / fd.duration)))
          (renderLayers fd.endLayers frame))
        (frameScale (1 - max 0 (min 1 ((now - s) / fd.duration)))
          (renderLayers fd.startLayers
            (frameZero (renderLayers fd.endLayers frame).length))) ∧
    max 0 (min 1 ((now - s) / fd.duration)) +
      (1 - max 0 (min 1 ((now - s) / fd.duration))) = 1 ∧
    (fd.render now frame).1.done = fd.done := by
  have hp0 : 0 ≤ (now - s) / fd.duration := div_nonneg h0 (le_of_lt hdur)
  have hplt : (now - s) / fd.duration < 1 := by
    rw [div_lt_one hdur]
    linarith
  have hclamp : max 0 (min 1 ((now - s) / fd.duration)) =
      (now - s) / fd.duration := by
    rw [min_eq_right (le_of_lt hplt), max_eq_right hp0]
  rw [LinearFade.render_active fd now s frame hstart hs hdur h0 h1, hclamp]
  exact ⟨rfl, by ring, rfl⟩

/-- C5 witness. -/
theorem c5_witness :
    (LinearFade.render ⟨[], [], 2, some 1, false⟩ 2 [1]).2 =
      frameAdd
        (frameScale (max 0 (min 1 ((2 - 1) / 2)))
          (renderLayers [] [1]))
        (frameScale (1 - max 0 (min 1 ((2 - 1) / 2)))
          (renderLayers [] (frameZero (renderLayers [] [1] : Frame).length))) :=
  (c5_linear_fade_weights ⟨[], [], 2, some 1, false⟩ 2 1 [1] rfl
    (by norm_num) (by norm_num) (by norm_num) (by norm_num)).1

/-- C6: every `TwoStepFade.render` call delegates to exactly one sub-fade
(the first while its done flag is unset, the second afterwards), and —
starting from any state satisfying the constructor-established invariant
`TSInv`, which `FastFade` and `TwoStepLinearFade` both establish — the
composite reports done iff its second sub-fade is done, and never while the
first sub-fade is still active. -/
theorem c6_two_step_fade (t : TwoStepFade) (now : ℚ) (frame : Frame)
    (hinv : TSInv t) :
    TSInv (t.render now frame).1 ∧
    (t.fade1.done = false →
      (t.render now frame).1.fade2 = t.fade2 ∧
      ((t.render now frame).1.fade1, (t.render now frame).2) =
        t.fade1.render now frame ∧
      (t.render now frame).1.done = false) ∧
    (t.fade1.done = true →
      (t.render now frame).1.fade1 = t.fade1 ∧
      ((t.render now frame).1.fade2, (t.render now frame).2) =
        t.fade2.render now frame) ∧
    ((t.render now frame).1.done = true ↔
      (t.render now frame).1.fade2.done = true) ∧
    ((t.render now frame).1.fade1.done = false →
      (t.render now frame).1.done = false) ∧
    (∀ sl el d, TSInv (FastFade sl el d)) ∧
    (∀ cl nl fl d1 d2, TSInv (TwoStepLinearFade cl nl fl d1 d2)) := by
  obtain ⟨hinv1, hinv2⟩ := hinv
  unfold TwoStepFade.render
  cases h1 : t.fade1.done with
  | false =>
    have h2 : t.fade2.done = false := hinv2 h1
    simp [h1, h2, hinv1, TSInv, FastFade, TwoStepLinearFade]
  | true =>
    simp [h1, TSInv, FastFade, TwoStepLinearFade]

/-- C6 witness. -/
theorem c6_witness : TSInv ((FastFade [] [] 2).render 1 []).1 :=
  (c6_two_step_fade (FastFade [] [] 2) 1 [] ⟨rfl, fun _ => rfl⟩).1

/-- C1: with no active fade and an active playlist, `Renderer.render`
invokes each layer of the current selection through the `safely_render`
wrapper: the call always returns a frame (no exception escapes), a failing
layer leaves the shared buffer exactly as it received it, and the remaining
layers still render on top of it. -/
theorem c1_layer_fault_containment (r : Renderer) (key : String)
    (pl : Playlist) (now : ℚ) (frame : Frame) (hfade : r.fade = none)
    (hkey : r.activePlaylist = some key) (hne : key ≠ "")
    (hpl : r.playlists key = some pl) :
    Renderer.render r now frame =
      some (r, r.gammaLayer (renderLayers pl.selection frame)) ∧
    (∀ (l : Layer) (f : Frame) (err : String),
      l.render f = .error err → safely_render l f = f) ∧
    (∀ (pre post : List Layer) (l : Layer) (err : String),
      pl.selection = pre ++ l :: post →
      l.render (renderLayers pre frame) = .error err →
      renderLayers pl.selection frame =
        renderLayers post (renderLayers pre frame)) := by
  have hs : strTruthy r.activePlaylist = true := by
    rw [hkey]
    simp [strTruthy, hne]
  refine ⟨?_, fun l f err h => safely_render_error l f err h, ?_⟩
  · unfold Renderer.render
    rw [hfade, hs]
    simp only [if_true, hkey, Option.getD_some, hpl]
  · intro pre post l err hsel herr
    rw [hsel, renderLayers_append, renderLayers_cons,
      safely_render_error l _ err herr]

/-- C1 witness. -/
theorem c1_witness :
    Renderer.render ⟨fun _ => some ⟨[], 0⟩, some "a", none, false, none, id⟩
        0 [] =
      some (⟨fun _ => some ⟨[], 0⟩, some "a", none, false, none, id⟩,
        id (renderLayers (Playlist.selection ⟨[], 0⟩) [])) :=
  (c1_layer_fault_containment _ "a" ⟨[], 0⟩ 0 [] rfl rfl (by decide) rfl).1

/-- C7: whenever the active fade reports done after being rendered, the same
`Renderer.render` call clears the fade reference, and — when a pending
playlist name is set — installs it as the active playlist and clears the
pending name. -/
theorem c7_fade_done_commit (r : Renderer) (fd : RFade) (now : ℚ)
    (frame : Frame) (hfade : r.fade = some fd)
    (hdone : ((fd.render now frame).1).done = true) :
    ∃ r', Renderer.render r now frame =
        some (r', r'.gammaLayer (fd.render now frame).2) ∧
      r'.fade = none ∧
      (∀ np, r.nextPlaylist = some np → np ≠ "" →
        r'.activePlaylist = some np ∧ r'.nextPlaylist = none) ∧
      (strTruthy r.nextPlaylist = false →
        r'.activePlaylist = r.activePlaylist ∧
        r'.nextPlaylist = r.nextPlaylist) := by
  cases hnp : strTruthy r.nextPlaylist with
  | true =>
    refine ⟨{ r with
        activePlaylist := r.nextPlaylist
        nextPlaylist := none
        fade := none }, ?_, rfl, ?_, ?_⟩
    · unfold Renderer.render
      rw [hfade]
      simp only [hdone, if_true, hnp]
    · intro np hnext _
      rw [hnext]
      exact ⟨rfl, rfl⟩
    · intro hcontra
      exact absurd hcontra (by simp)
  | false =>
    refine ⟨{ r with fade := none }, ?_, rfl, ?_, fun _ => ⟨rfl, rfl⟩⟩
    · unfold Renderer.render
      rw [hfade]
      simp only [hdone, if_true, hnp]
      simp
    · intro np hnext hne
      rw [hnext] at hnp
      simp [strTruthy, hne] at hnp

/-- C7 witness. -/
theorem c7_witness :
    ∃ r', Renderer.render
        ⟨fun _ => none, some "a", some "b", false,
          some (.linear ⟨[], [], 1, some 1, false⟩), id⟩ 2 [] =
      some (r',
        r'.gammaLayer ((RFade.linear ⟨[], [], 1, some 1, false⟩).render 2 []).2) ∧
      r'.fade = none ∧
      (∀ np, (some "b" : Option String) = some np → np ≠ "" →
        r'.activePlaylist = some np ∧ r'.nextPlaylist = none) ∧
      (strTruthy (some "b") = false →
        r'.activePlaylist = some "a" ∧ r'.nextPlaylist = some "b") := by
  have h : LinearFade.render ⟨[], [], 1, some 1, false⟩ 2 [] =
      (⟨[], [], 1, some 1, true⟩, []) := by
    rw [LinearFade.render_done ⟨[], [], 1, some 1, false⟩ 2 1 [] rfl
      (by norm_num) (by norm_num) (by norm_num)]
    rfl
  exact c7_fade_done_commit
    ⟨fun _ => none, some "a", some "b", false,
      some (.linear ⟨[], [], 1, some 1, false⟩), id⟩
    (.linear ⟨[], [], 1, some 1, false⟩) 2 [] rfl
    (by simp [RFade.render, RFade.done, h])

/-- C2 (code behavior at the failing input): a layer whose last resolved
response level is 1/2, with no pending fade, receives a frame carrying no
new reading (the same reading object again, or none at all).  The code
passes `none` ("no signal") to `render_responsive` instead of the resolved
level 1/2, and leaves the state unchanged. -/
theorem c2_code_behavior :
    HRLayer.render
        ⟨5, [1/2], [100], some ⟨1, true, 1/2⟩, some (1/2), none⟩
        (some ⟨1, true, 1/2⟩) 101 =
      some (⟨5, [1/2], [100], some ⟨1, true, 1/2⟩, some (1/2), none⟩, none) ∧
    HRLayer.render
        ⟨5, [1/2], [100], some ⟨1, true, 1/2⟩, some (1/2), none⟩ none 101 =
      some (⟨5, [1/2], [100], some ⟨1, true, 1/2⟩, some (1/2), none⟩, none) ∧
    (none : Option ℚ) ≠ some (1/2) := by
  refine ⟨?_, rfl, by simp⟩
  simp only [HRLayer.render]
  rw [if_neg (by simp)]
  rfl

/-- C3 (code behavior at the failing input): a layer with no history at all
processes its first valid reading with value 3/4.  The code records the
measurement but emits `none` as the response level for that same render
call — not 3/4 — because `start_fade` is only reached once at least two
measurements are retained. -/
theorem c3_code_behavior :
    HRLayer.render ⟨5, [], [], none, none, none⟩ (some ⟨1, true, 3/4⟩) 100 =
      some (⟨5, [3/4], [100], some ⟨1, true, 3/4⟩, none, none⟩, none) ∧
    (none : Option ℚ) ≠ some (3/4) := by
  refine ⟨?_, by simp⟩
  simp only [HRLayer.render]
  rw [if_pos (by simp)]
  norm_num [qTruthy, trimLen, HRLayer.start_fade]

/-- C9: the value 0.0 is treated as absent by the truthiness guards of
`HeadsetResponsiveEffectLayer`: a stored response level of exactly 0 is
overwritten immediately by `start_fade` instead of starting a fade; a
pending fade target of exactly 0 is never interpolated on idle frames and
is never committed into the level by a new reading. -/
theorem c9_zero_is_absent :
    (∀ (s : HRLayer) (v : ℚ), s.last_response_level = some 0 →
      (s.start_fade v).last_response_level = some v ∧
      (s.start_fade v).fading_to = s.fading_to) ∧
    (∀ (s : HRLayer) (now : ℚ), s.fading_to = some 0 →
      s.render none now = some (s, none)) ∧
    (∀ (s : HRLayer) (e : EEG) (now L : ℚ), s.fading_to = some 0 →
      s.last_response_level = some L → L ≠ 0 →
      some e ≠ s.last_eeg → e.on = true →
      ∃ s' out, s.render (some e) now = some (s', out) ∧
        s'.last_response_level = some L) := by
  have hq0 : qTruthy (some 0) = false := by simp [qTruthy]
  refine ⟨?_, ?_, ?_⟩
  · intro s v hlev
    unfold HRLayer.start_fade
    rw [hlev, hq0]
    simp
  · intro s now hft
    unfold HRLayer.render HRLayer.renderNoNewReading
    rw [hft, hq0]
    simp
  · intro s e now L hft hlev hL hne hon
    simp only [HRLayer.render,
      if_pos (show some e ≠ s.last_eeg ∧ e.on = true from ⟨hne, hon⟩),
      hft, hq0, Bool.false_eq_true, if_false]
    refine ⟨_, _, rfl, ?_⟩
    split
    · unfold HRLayer.start_fade
      split
      · rename_i hcontra
        rw [show ({ s with
            measurements := (e.value :: s.measurements).take
              (trimLen s.smooth_response_over_n_secs now (now :: s.timestamps))
            timestamps := (now :: s.timestamps).take
              (trimLen s.smooth_response_over_n_secs now (now :: s.timestamps))
            last_eeg := some e } : HRLayer).last_response_level =
            some L from hlev, qTruthy] at hcontra
        simp [hL] at hcontra
      · simpa using hlev
    · simpa using hlev

/-- C9 witness. -/
theorem c9_witness :
    ((⟨5, [], [], none, some 0, none⟩ : HRLayer).start_fade
        (1/2)).last_response_level = some (1/2) ∧
    ((⟨5, [], [], none, some 0, none⟩ : HRLayer).start_fade
        (1/2)).fading_to = none :=
  (c9_zero_is_absent.1 ⟨5, [], [], none, some 0, none⟩ (1/2) rfl)

/-- The trim loop's count equals the length of the within-window prefix plus
one more entry when an over-window entry exists. -/
theorem trimLen_eq (w t0 : ℚ) (ts : List ℚ) :
    trimLen w t0 ts =
      (ts.takeWhile (fun t => decide (t0 - t ≤ w))).length +
        min (ts.dropWhile (fun t => decide (t0 - t ≤ w))).length 1 := by
  induction ts with
  | nil => rfl
  | cons t rest ih =>
    by_cases h : t0 - t ≤ w
    · have hnlt : ¬ w < t0 - t := not_lt.mpr h
      simp only [trimLen, if_neg hnlt, List.takeWhile_cons, List.dropWhile_cons,
        decide_eq_true_eq, if_pos h, List.length_cons, ih]
      omega
    · have hlt : w < t0 - t := not_le.mp h
      simp only [trimLen, if_pos hlt, List.takeWhile_cons, List.dropWhile_cons,
        decide_eq_true_eq, if_neg h, List.length_nil, List.length_cons]
      omega

/-- Taking the within-window prefix length plus `n` splits at the
`takeWhile`/`dropWhile` boundary. -/
theorem take_takeWhile_add (p : ℚ → Bool) (ts : List ℚ) (n : Nat) :
    ts.take ((ts.takeWhile p).length + n) =
      ts.takeWhile p ++ (ts.dropWhile p).take n := by
  have h : (ts.takeWhile p ++ ts.dropWhile p).take
        ((ts.takeWhile p).length + n) =
      ts.takeWhile p ++ (ts.dropWhile p).take n := List.take_append n
  rwa [List.takeWhile_append_dropWhile] at h

/-- On a newest-first (descending) timestamp list, the entries within the
window form a prefix: `filter` and `takeWhile` agree. -/
theorem filter_eq_takeWhile_of_sorted (w t0 : ℚ) (ts : List ℚ)
    (hs : List.Pairwise (fun a b => b ≤ a) ts) :
    ts.filter (fun t => decide (t0 - t ≤ w)) =
      ts.takeWhile (fun t => decide (t0 - t ≤ w)) := by
  induction ts with
  | nil => rfl
  | cons t rest ih =>
    obtain ⟨hhead, htail⟩ := List.pairwise_cons.mp hs
    by_cases h : t0 - t ≤ w
    · simp only [List.filter_cons, List.takeWhile_cons, decide_eq_true_eq,
        if_pos h, ih htail]
    · have hall : ∀ x ∈ rest, ¬ (t0 - x ≤ w) := by
        intro x hx hxw
        exact h (by linarith [hhead x hx])
      simp only [List.filter_cons, List.takeWhile_cons, decide_eq_true_eq,
        if_neg h]
      exact List.filter_eq_nil_iff.mpr (by simpa using hall)

/-- C8: after prepending a new reading's timestamp, the retained history is
every entry within the smoothing window of the newest timestamp plus exactly
the first entry (newest-to-oldest) beyond it; with no entry beyond the
window the full history is retained.  Timestamps are newest-first
(descending), as produced by prepending readings under a monotone clock. -/
theorem c8_history_trim (w t0 : ℚ) (rest : List ℚ)
    (hsorted : List.Pairwise (fun a b => b ≤ a) (t0 :: rest)) :
    ((t0 :: rest).dropWhile (fun t => decide (t0 - t ≤ w)) = [] →
      (t0 :: rest).take (trimLen w t0 (t0 :: rest)) = t0 :: rest) ∧
    (∀ e l, (t0 :: rest).dropWhile (fun t => decide (t0 - t ≤ w)) = e :: l →
      (t0 :: rest).take (trimLen w t0 (t0 :: rest)) =
        (t0 :: rest).filter (fun t => decide (t0 - t ≤ w)) ++ [e]) := by
  constructor
  · intro hd
    have htw : (t0 :: rest).takeWhile (fun t => decide (t0 - t ≤ w)) =
        t0 :: rest := by
      have hsplit := List.takeWhile_append_dropWhile
        (fun t => decide (t0 - t ≤ w)) (t0 :: rest)
      rw [hd, List.append_nil] at hsplit
      exact hsplit
    rw [trimLen_eq, hd]
    simp only [List.length_nil, Nat.zero_min, Nat.add_zero, htw,
      List.take_length]
  · intro e l hd
    rw [trimLen_eq, hd]
    have hmin : min (e :: l).length 1 = 1 := by
      simp only [List.length_cons]
      omega
    rw [hmin, take_takeWhile_add, hd,
      filter_eq_takeWhile_of_sorted w t0 _ hsorted]
    rfl

/-- C8 witness: window 5, newest timestamp 110, history
[110, 108, 104, 100, 90]; ages are [0, 2, 6, 10, 20], so the retained
history is the within-window entries [110, 108] plus the first entry past
the boundary, 104. -/
theorem c8_witness :
    ([110, 108, 104, 100, 90] : List ℚ).take
        (trimLen 5 110 [110, 108, 104, 100, 90]) =
      ([110, 108, 104, 100, 90] : List ℚ).filter
        (fun t => decide ((110 : ℚ) - t ≤ 5)) ++ [104] :=
  (c8_history_trim 5 110 [108, 104, 100, 90] (by norm_num)).2 104 [100, 90]
    (by norm_num [List.dropWhile])

/-- Helper: the first render call of a `LinearFade` (start not yet captured,
positive duration) captures the start instant and is not yet done. -/
theorem LinearFade.render_first (fd : LinearFade) (now : ℚ) (frame : Frame)
    (hstart : fd.start = none) (hdur : 0 < fd.duration) :
    (fd.render now frame).1 = { fd with start := some now } := by
  have hq : qTruthy fd.start = false := by rw [hstart]; rfl
  have hz : (now - now) / fd.duration = 0 := by rw [sub_self, zero_div]
  unfold LinearFade.render
  rw [hq]
  simp only [Bool.false_eq_true, if_false, hz]
  rw [if_neg (by norm_num : ¬ (1 : ℚ) ≤ 0)]
  split <;> rfl

/-- C10: `advanceCurrentPlaylist` installs a within-playlist `LinearFade`
without clearing a pending playlist name; if a cross-playlist swap was in
flight, completing the new within-playlist fade (first render at `t0`,
second at `t0 + d`) still commits the stale pending playlist as active. -/
theorem c10_advance_keeps_pending (r : Renderer) (a p : String)
    (pl : Playlist) (d t0 : ℚ) (frame frame2 : Frame)
    (hact : r.activePlaylist = some a) (ha : a ≠ "")
    (hpl : r.playlists a = some pl) (hnext : r.nextPlaylist = some p)
    (hp : p ≠ "") (hd : 0 < d) (ht : 0 < t0) :
    ∃ r1, r.advanceCurrentPlaylist d = some r1 ∧
      r1.nextPlaylist = some p ∧
      r1.fade = some (.linear
        ⟨pl.selection, pl.advance.selection, d, none, false⟩) ∧
      ∃ r2 f2, r1.render t0 frame = some (r2, f2) ∧
        r2.nextPlaylist = some p ∧
        ∃ r3 f3, r2.render (t0 + d) frame2 = some (r3, f3) ∧
          r3.activePlaylist = some p ∧ r3.nextPlaylist = none ∧
          r3.fade = none := by
  have hactive : r.active = some (some pl) := by
    unfold Renderer.active Renderer.get
    rw [hact]
    simp [strTruthy, ha, hpl]
  have hadv : r.advanceCurrentPlaylist d = some
      { r with
        playlists := fun k =>
          if r.activePlaylist = some k then some pl.advance
          else r.playlists k
        fade := some (.linear
          ⟨pl.selection, pl.advance.selection, d, none, false⟩) } := by
    unfold Renderer.advanceCurrentPlaylist
    rw [hactive]
  have hlf0 : (LinearFade.render
      ⟨pl.selection, pl.advance.selection, d, none, false⟩ t0 frame).1 =
      ⟨pl.selection, pl.advance.selection, d, some t0, false⟩ :=
    LinearFade.render_first _ t0 frame rfl hd
  have hlf1 : LinearFade.render
      ⟨pl.selection, pl.advance.selection, d, some t0, false⟩ (t0 + d)
        frame2 =
      (⟨pl.selection, pl.advance.selection, d, some t0, true⟩,
        renderLayers pl.advance.selection frame2) := by
    rw [LinearFade.render_done _ (t0 + d) t0 frame2 rfl (ne_of_gt ht) hd
      (by linarith)]
  have hst : strTruthy r.nextPlaylist = true := by
    rw [hnext]
    simp [strTruthy, hp]
  have hrender1 : Renderer.render
      { r with
        playlists := fun k =>
          if r.activePlaylist = some k then some pl.advance
          else r.playlists k
        fade := some (.linear
          ⟨pl.selection, pl.advance.selection, d, none, false⟩) } t0 frame =
      some
        ({ r with
          playlists := fun k =>
            if r.activePlaylist = some k then some pl.advance
            else r.playlists k
          fade := some (.linear
            ⟨pl.selection, pl.advance.selection, d, some t0, false⟩) },
          r.gammaLayer (LinearFade.render
            ⟨pl.selection, pl.advance.selection, d, none, false⟩
            t0 frame).2) := by
    unfold Renderer.render
    simp only [RFade.render, hlf0, RFade.done, Bool.false_eq_true, if_false]
  have hrender2 : Renderer.render
      { r with
        playlists := fun k =>
          if r.activePlaylist = some k then some pl.advance
          else r.playlists k
        fade := some (.linear
          ⟨pl.selection, pl.advance.selection, d, some t0, false⟩) }
        (t0 + d) frame2 =
      some
        ({ r with
          playlists := fun k =>
            if r.activePlaylist = some k then some pl.advance
            else r.playlists k
          activePlaylist := r.nextPlaylist
          nextPlaylist := none
          fade := none },
          r.gammaLayer (renderLayers pl.advance.selection frame2)) := by
    unfold Renderer.render
    simp only [RFade.render, hlf1, RFade.done, if_true, hst]
  exact ⟨_, hadv, hnext, rfl, _, _, hrender1, hnext, _, _, hrender2,
    hnext, rfl, rfl⟩

/-- C10 witness. -/
theorem c10_witness :
    ∃ r1, Renderer.advanceCurrentPlaylist
        ⟨fun _ => some ⟨[[], []], 0⟩, some "a", some "b", false, none, id⟩
        1 = some r1 ∧
      r1.nextPlaylist = some "b" ∧
      r1.fade = some (.linear ⟨Playlist.selection ⟨[[], []], 0⟩,
        Playlist.selection (Playlist.advance ⟨[[], []], 0⟩), 1, none,
        false⟩) ∧
      ∃ r2 f2, r1.render 1 [] = some (r2, f2) ∧
        r2.nextPlaylist = some "b" ∧
        ∃ r3 f3, r2.render (1 + 1) [] = some (r3, f3) ∧
          r3.activePlaylist = some "b" ∧ r3.nextPlaylist = none ∧
          r3.fade = none :=
  c10_advance_keeps_pending
    ⟨fun _ => some ⟨[[], []], 0⟩, some "a", some "b", false, none, id⟩
    "a" "b" ⟨[[], []], 0⟩ 1 1 [] [] rfl (by decide) rfl rfl (by decide)
    (by norm_num) (by norm_num)

end MensAmplio
